import Mathlib

/-!
Verification of the experience-replay memory subsystem of
`ngraph/frontends/neon/dqn.py`: the uniform bounded sampler (`Memory`,
called UniformMemory in the design document) and the frame-stack-aware
circular buffer (`RepeatMemory`, called FrameStackReplay in the design
document).

The embedding is shallow: frames are exact rationals (the concrete
scenarios in the design use a scalar frame shape), numpy's `allclose`
is modelled by its defining formula with the default tolerances
`rtol = 1e-5`, `atol = 1e-8` over ℚ, the circular buffers are Lean
lists of fixed length, and the unbounded rejection-sampling loop of
`_sample_single` is modelled with an explicit fuel parameter and an
explicit stream of random draws (`random.randint(0, len - k - 1)`
only ever produces values in range; theorems about the loop therefore
carry that range condition as a hypothesis).

Python's `None` entries of the `records` array are modelled as
`Option.none`; reading the `done` flag of an absent record is modelled
as `false` (the original would crash there, and no claim exercises an
absent slot: every sampled window lies inside the first `count` slots,
which are always populated).
-/

deriving instance DecidableEq for Except

attribute [local semireducible] Rat.add Rat.sub Rat.mul Rat.inv

/-- Error taxonomy of the design document: `ShapeError` for the frame-count
asserts of `_check_record`, `ValidationError` for the sliding-window
`allclose` check, `InsufficientHistoryError` for the precondition of
`RepeatMemory.sample`, `SampleSizeError` for `random.sample` receiving a
batch size larger than the population. -/
inductive MemErr where
  | shape
  | validation
  | insufficientHistory
  | sampleSize
  deriving DecidableEq, Repr

/-- numpy `isclose` on scalars, with the default tolerances
`rtol = 1e-5`, `atol = 1e-8`, over exact rationals:
`|a - b| <= atol + rtol * |b|`. -/
def isclose (a b : ℚ) : Bool :=
  decide (|a - b| ≤ 1 / 100000000 + 1 / 100000 * |b|)

/-- numpy `allclose` on one-dimensional arrays: shapes must agree and every
pair of elements must be close. -/
def allclose (a b : List ℚ) : Bool :=
  a.length == b.length && (a.zip b).all fun p => isclose p.1 p.2

/-- TransitionRecord: the dict passed to `append`
(`{state, action, reward, next_state, done}`).  `state` and `next_state`
are windows of scalar frames, oldest first (the repeated-frame axis is
axis 0 in the source). -/
structure TransitionRecord where
  state : List ℚ
  action : ℤ
  reward : ℚ
  next_state : List ℚ
  done : Bool
  deriving DecidableEq, Repr

/-- The metadata kept per slot after `RepeatMemory.append` has executed
`del record['state']; del record['next_state']`. -/
structure StoredRecord where
  action : ℤ
  reward : ℚ
  done : Bool
  deriving DecidableEq, Repr

/-- RepeatMemory (FrameStackReplay): `records` is the `[None] * maxlen`
metadata array, `observations` the `np.zeros((maxlen,) + shape)` frame
array, `count` the number of valid slots, `write_position` the next slot
to overwrite. -/
structure RepeatMemory where
  frames_per_observation : ℕ
  maxlen : ℕ
  records : List (Option StoredRecord)
  observations : List ℚ
  count : ℕ
  write_position : ℕ
  deriving DecidableEq, Repr

/-- RepeatMemory.__init__ with a scalar observation shape. -/
def RepeatMemory.init (frames_per_observation maxlen : ℕ) : RepeatMemory :=
  { frames_per_observation := frames_per_observation
    maxlen := maxlen
    records := List.replicate maxlen none
    observations := List.replicate maxlen 0
    count := 0
    write_position := 0 }

/-- RepeatMemory._check_record: first the `np.allclose` comparison of
`state[1:]` with `next_state[:-1]` (raising `ValueError`, the design's
ValidationError, when it fails), then the two frame-count asserts
(`AssertionError`, the design's ShapeError). -/
def RepeatMemory.check_record (s : RepeatMemory) (r : TransitionRecord) :
    Except MemErr Unit :=
  if !allclose (r.state.drop 1) (r.next_state.dropLast) then .error .validation
  else if r.state.length ≠ s.frames_per_observation then .error .shape
  else if r.next_state.length ≠ s.frames_per_observation then .error .shape
  else .ok ()

/-- RepeatMemory.append: check the record, extract the tail frame
`next_state[-1]`, store the metadata at `write_position`, store the frame
at `write_position`, then bump `count` (saturating at `maxlen`) and
advance `write_position` (wrapping at `maxlen`).  A failing check returns
only the error: the caller keeps the unchanged memory. -/
def RepeatMemory.append (s : RepeatMemory) (r : TransitionRecord) :
    Except MemErr RepeatMemory :=
  match s.check_record r with
  | .error e => .error e
  | .ok _ =>
    let observation := r.next_state.getLastD 0
    .ok { s with
          records :=
            s.records.set s.write_position (some ⟨r.action, r.reward, r.done⟩)
          observations := s.observations.set s.write_position observation
          count := if s.count < s.maxlen then s.count + 1 else s.count
          write_position :=
            if s.write_position + 1 = s.maxlen then 0
            else s.write_position + 1 }

/-- Helper to run a list of appends from left to right, stopping at the
first error. -/
def appendAll (s : RepeatMemory) (rs : List TransitionRecord) :
    Except MemErr RepeatMemory :=
  match rs with
  | [] => .ok s
  | r :: rest =>
    match s.append r with
    | .error e => .error e
    | .ok s₁ => appendAll s₁ rest

/-- Reading the `done` flag of a slot of the `records` array (`false` for a
never-written slot; see the module comment). -/
def doneOpt : Option StoredRecord → Bool
  | some rec => rec.done
  | none => false

/-- The straddle rejection of `_sample_single`:
`i < self.write_position and i_end > self.write_position` with
`i_end = i + frames_per_observation + 1`. -/
def RepeatMemory.straddles (s : RepeatMemory) (i : ℕ) : Bool :=
  decide (i < s.write_position) &&
    decide (s.write_position < i + s.frames_per_observation + 1)

/-- The episode-boundary rejection of `_sample_single`:
`any(record['done'] for record in records[:-1])` over the slots
`range(i, i_end - 1)`, i.e. positions `i .. i + k - 1`. -/
def RepeatMemory.doneInWindow (s : RepeatMemory) (i : ℕ) : Bool :=
  (List.range s.frames_per_observation).any fun m =>
    doneOpt (s.records.getD (i + m) none)

/-- A candidate start index `i` is accepted by the rejection loop of
`_sample_single` when it neither straddles the write position nor has a
`done` flag in a non-final position of its window. -/
def RepeatMemory.accepted (s : RepeatMemory) (i : ℕ) : Bool :=
  !s.straddles i && !s.doneInWindow i

/-- The window reconstruction performed after acceptance:
`state = observations[i : i_end - 1]`, `next_state = observations[i + 1 : i_end]`,
attached to a copy of `records[i_end - 1] = records[i + k]`.  Returns
`none` when that metadata slot was never written (the original would
crash on `None.copy()`). -/
def RepeatMemory.reconstruct (s : RepeatMemory) (i : ℕ) :
    Option TransitionRecord :=
  match s.records.getD (i + s.frames_per_observation) none with
  | none => none
  | some rec =>
    some { state := (List.range s.frames_per_observation).map fun m =>
             s.observations.getD (i + m) 0
           action := rec.action
           reward := rec.reward
           next_state := (List.range s.frames_per_observation).map fun m =>
             s.observations.getD (i + 1 + m) 0
           done := rec.done }

/-- RepeatMemory._sample_single: the unbounded `while True` rejection loop,
modelled with a stream `draws` of random values (`draws t` is the value
produced by `random.randint` on loop iteration `t`) and a fuel bound;
`none` means the loop is still running when the fuel runs out. -/
def RepeatMemory.sample_single (s : RepeatMemory) (draws : ℕ → ℕ) (t : ℕ) :
    ℕ → Option TransitionRecord
  | 0 => none
  | fuel + 1 =>
    if s.accepted (draws t) then s.reconstruct (draws t)
    else s.sample_single draws (t + 1) fuel

/-- RepeatMemory.sample: raise when `len(self) < frames_per_observation`,
otherwise draw `batch_size` samples, each with its own stream of random
values. -/
def RepeatMemory.sample (s : RepeatMemory) (batch_size : ℕ)
    (draws : ℕ → ℕ → ℕ) (fuel : ℕ) :
    Except MemErr (List (Option TransitionRecord)) :=
  if s.count < s.frames_per_observation then .error .insufficientHistory
  else .ok ((List.range batch_size).map fun j =>
    s.sample_single (draws j) 0 fuel)

/-- The set of slots `range(i, i_end)` examined by `_sample_single` for the
candidate start `i`: raw array indices, no wrap-around. -/
def RepeatMemory.codeWindowSlots (s : RepeatMemory) (i : ℕ) : List ℕ :=
  (List.range (s.frames_per_observation + 1)).map fun m => i + m

/-- Spec-side definition, following the design document's words: the
oldest retained slot is `write_position` once the buffer is full and slot
0 before that. -/
def RepeatMemory.specOldest (s : RepeatMemory) : ℕ :=
  if s.count = s.maxlen then s.write_position else 0

/-- Spec-side definition, following the design document's words: the slots
of the window starting at logical index `l`, linearized from the oldest
retained slot and taken mod `maxlen`. -/
def RepeatMemory.specWindowSlots (s : RepeatMemory) (l : ℕ) : List ℕ :=
  (List.range (s.frames_per_observation + 1)).map fun m =>
    (s.specOldest + l + m) % s.maxlen

/-- Spec-side definition, following the design document's words: a valid
k-window starts at a logical index in `[0, count - k - 1]` (so the
linearized run cannot straddle the write position) and has no `done` flag
in its non-final positions. -/
def RepeatMemory.specValidWindow (s : RepeatMemory) (l : ℕ) : Bool :=
  decide (l + s.frames_per_observation + 1 ≤ s.count) &&
    !((List.range s.frames_per_observation).any fun m =>
      doneOpt (s.records.getD ((s.specOldest + l + m) % s.maxlen) none))

/-- Memory (UniformMemory): a `deque` with a maximum length, oldest
element first. -/
structure Memory where
  maxlen : ℕ
  items : List TransitionRecord
  deriving DecidableEq, Repr

/-- deque.append with a maximum length: evict the oldest element first
when at capacity (a zero-capacity deque stays empty). -/
def Memory.append (m : Memory) (r : TransitionRecord) : Memory :=
  if m.maxlen = 0 then m
  else if m.items.length < m.maxlen then { m with items := m.items ++ [r] }
  else { m with items := m.items.drop 1 ++ [r] }

/-- Placeholder record used only as the default of an in-range `getD`. -/
def defaultRecord : TransitionRecord :=
  { state := [], action := 0, reward := 0, next_state := [], done := false }

/-- Memory.sample, i.e. `random.sample(self, batch_size)`: raises
`ValueError` (the design's SampleSizeError) when the batch size exceeds
the population, otherwise returns the elements at `batch_size` distinct
positions chosen by the random source (modelled as the explicit index
list `idxs`, which `random.sample` guarantees to be in-range, duplicate
free and of length `batch_size`). -/
def Memory.sample (m : Memory) (batch_size : ℕ) (idxs : List ℕ) :
    Except MemErr (List TransitionRecord) :=
  if m.items.length < batch_size then .error .sampleSize
  else .ok (idxs.map fun i => m.items.getD i defaultRecord)

/-- Five sliding-window transitions over the frames `0..6` for a 2-frame
observation: append `j` carries `state = [f j, f (j+1)]`,
`next_state = [f (j+1), f (j+2)]` with `f m = m`. -/
def recsA : List TransitionRecord :=
  [⟨[0, 1], 0, 0, [1, 2], false⟩,
   ⟨[1, 2], 1, 0, [2, 3], false⟩,
   ⟨[2, 3], 2, 0, [3, 4], false⟩,
   ⟨[3, 4], 3, 0, [4, 5], false⟩,
   ⟨[4, 5], 4, 0, [5, 6], false⟩]

/-- The buffer state after appending `recsA` to
`RepeatMemory.init 2 5`: full, with `write_position` wrapped to 0. -/
def sA : RepeatMemory :=
  { frames_per_observation := 2
    maxlen := 5
    records := [some ⟨0, 0, false⟩, some ⟨1, 0, false⟩, some ⟨2, 0, false⟩,
                some ⟨3, 0, false⟩, some ⟨4, 0, false⟩]
    observations := [2, 3, 4, 5, 6]
    count := 5
    write_position := 0 }

/-- Seven sliding-window transitions over the frames `0..8` for a 2-frame
observation; the last two wrap around and overwrite slots 0 and 1. -/
def recsB : List TransitionRecord :=
  [⟨[0, 1], 0, 0, [1, 2], false⟩,
   ⟨[1, 2], 1, 0, [2, 3], false⟩,
   ⟨[2, 3], 2, 0, [3, 4], false⟩,
   ⟨[3, 4], 3, 0, [4, 5], false⟩,
   ⟨[4, 5], 4, 0, [5, 6], false⟩,
   ⟨[5, 6], 5, 0, [6, 7], false⟩,
   ⟨[6, 7], 6, 0, [7, 8], false⟩]

/-- The buffer state after appending `recsB` to `RepeatMemory.init 2 5`:
full, slots 0 and 1 overwritten, `write_position = 2`. -/
def sB : RepeatMemory :=
  { frames_per_observation := 2
    maxlen := 5
    records := [some ⟨5, 0, false⟩, some ⟨6, 0, false⟩, some ⟨2, 0, false⟩,
                some ⟨3, 0, false⟩, some ⟨4, 0, false⟩]
    observations := [7, 8, 4, 5, 6]
    count := 5
    write_position := 2 }

/-- Two terminal transitions for a 1-frame observation: with
`frames_per_observation = 1` the overlap check is vacuous, so consecutive
`done = true` appends are legal. -/
def recsC : List TransitionRecord :=
  [⟨[0], 0, 0, [1], true⟩,
   ⟨[1], 1, 0, [2], true⟩]

/-- The buffer state after appending `recsC` to `RepeatMemory.init 1 2`:
every stored record is terminal, so no window is ever accepted. -/
def sC : RepeatMemory :=
  { frames_per_observation := 1
    maxlen := 2
    records := [some ⟨0, 0, true⟩, some ⟨1, 0, true⟩]
    observations := [1, 2]
    count := 2
    write_position := 0 }

/-- A record violating both the frame-count contract (three frames instead
of two) and the sliding-window overlap (`state[1:] = [5, 9]` is nowhere
near `next_state[:-1] = [2, 6]`). -/
def recShape : TransitionRecord :=
  ⟨[1, 5, 9], 0, 0, [2, 6, 7], false⟩

/-- A three-element uniform memory used to witness `Memory.sample`. -/
def mU : Memory :=
  { maxlen := 3
    items := [⟨[0], 0, 0, [1], false⟩,
              ⟨[1], 1, 1, [2], false⟩,
              ⟨[2], 2, 2, [3], true⟩] }

/-- The buffer state after appending only the first two records of `recsA`
to `RepeatMemory.init 2 5`: slots 0 and 1 hold frames 2 and 3, the next
write goes to slot 2. -/
def sD : RepeatMemory :=
  { frames_per_observation := 2
    maxlen := 5
    records := [some ⟨0, 0, false⟩, some ⟨1, 0, false⟩, none, none, none]
    observations := [2, 3, 0, 0, 0]
    count := 2
    write_position := 2 }

/-- The buffer state `sD` after one more append carrying frames `[2,3]` /
`[3,4]` with `action = 7`, `reward = 1`, `done = true`. -/
def sD₁ : RepeatMemory :=
  { frames_per_observation := 2
    maxlen := 5
    records := [some ⟨0, 0, false⟩, some ⟨1, 0, false⟩, some ⟨7, 1, true⟩,
                none, none]
    observations := [2, 3, 4, 0, 0]
    count := 3
    write_position := 3 }

/-- Setting a slot does not change reads of other slots. -/
theorem getD_set_ne {α : Type} (l : List α) (i j : ℕ) (v d : α) (h : i ≠ j) :
    (l.set i v).getD j d = l.getD j d := by
  simp [List.getD_eq_getElem?_getD, List.getElem?_set_ne h]

/-- Setting an in-range slot makes a read of that slot return the new
value. -/
theorem getD_set_self {α : Type} (l : List α) (i : ℕ) (v d : α)
    (h : i < l.length) :
    (l.set i v).getD i d = v := by
  simp [List.getD_eq_getElem?_getD, List.getElem?_set_self h]

/-- A value is always close to itself. -/
theorem isclose_self (a : ℚ) : isclose a a = true := by
  simp only [isclose, sub_self, abs_zero, decide_eq_true_eq]
  positivity

/-- Auxiliary step for `allclose_self`. -/
theorem zip_self_all_isclose (l : List ℚ) :
    ((l.zip l).all fun p => isclose p.1 p.2) = true := by
  induction l with
  | nil => rfl
  | cons a t ih => simp [List.zip_cons_cons, isclose_self, ih]

/-- An array is always `allclose` to itself. -/
theorem allclose_self (l : List ℚ) : allclose l l = true := by
  simp [allclose, zip_self_all_isclose]

/-- The last element of a mapped range. -/
theorem range_map_getLastD {α : Type} (n : ℕ) (g : ℕ → α) (d : α) :
    ((List.range (n + 1)).map g).getLastD d = g n := by
  rw [List.range_succ, List.map_append]
  simp [List.getLastD_concat]

/-- Dropping the head of a mapped range shifts the function. -/
theorem range_map_drop_one {α : Type} (n : ℕ) (g : ℕ → α) :
    ((List.range (n + 1)).map g).drop 1 =
      (List.range n).map fun m => g (m + 1) := by
  rw [List.range_succ_eq_map, List.map_cons, List.drop_succ_cons,
    List.drop_zero, List.map_map]
  rfl

/-- Dropping the last element of a mapped range shortens the range. -/
theorem range_map_dropLast {α : Type} (n : ℕ) (g : ℕ → α) :
    ((List.range (n + 1)).map g).dropLast = (List.range n).map g := by
  rw [List.range_succ, List.map_append]
  simp

/-- One accepted step of the rejection loop returns the reconstruction of
the drawn index. -/
theorem sample_single_accepts (s : RepeatMemory) (draws : ℕ → ℕ) (t fuel : ℕ)
    (h : s.accepted (draws t) = true) :
    s.sample_single draws t (fuel + 1) = s.reconstruct (draws t) := by
  simp [RepeatMemory.sample_single, h]

/-- C4: for every valid record passed to `RepeatMemory.append` (shape and
sliding-window checks passing), the tail frame of `next_state` is written
to `observations[write_position]`, the metadata `{action, reward, done}`
is written to `records[write_position]` (the full windows are discarded),
and afterwards `write_position` becomes `(write_position + 1) mod maxlen`
and `count` becomes `min (count + 1) maxlen`. -/
theorem C4_append_effects (s : RepeatMemory) (r : TransitionRecord)
    (hchk : s.check_record r = .ok ())
    (hwp : s.write_position < s.maxlen) (hc : s.count ≤ s.maxlen) :
    s.append r = .ok
      { frames_per_observation := s.frames_per_observation
        maxlen := s.maxlen
        records :=
          s.records.set s.write_position (some ⟨r.action, r.reward, r.done⟩)
        observations :=
          s.observations.set s.write_position (r.next_state.getLastD 0)
        count := min (s.count + 1) s.maxlen
        write_position := (s.write_position + 1) % s.maxlen } := by
  have hcnt : (if s.count < s.maxlen then s.count + 1 else s.count) =
      min (s.count + 1) s.maxlen := by
    by_cases h : s.count < s.maxlen
    · rw [if_pos h]; omega
    · rw [if_neg h]; omega
  have hwp2 : (if s.write_position + 1 = s.maxlen then 0
      else s.write_position + 1) = (s.write_position + 1) % s.maxlen := by
    by_cases h : s.write_position + 1 = s.maxlen
    · rw [if_pos h, h, Nat.mod_self]
    · rw [if_neg h, Nat.mod_eq_of_lt (by omega)]
  unfold RepeatMemory.append
  rw [hchk, hcnt, hwp2]

/-- C4 witness: the append effects at a concrete input. -/
theorem C4_witness :
    (RepeatMemory.init 2 5).append ⟨[0, 1], 0, 0, [1, 2], false⟩ = .ok
      { frames_per_observation := (RepeatMemory.init 2 5).frames_per_observation
        maxlen := (RepeatMemory.init 2 5).maxlen
        records := (RepeatMemory.init 2 5).records.set
          (RepeatMemory.init 2 5).write_position (some ⟨0, 0, false⟩)
        observations := (RepeatMemory.init 2 5).observations.set
          (RepeatMemory.init 2 5).write_position
          (([1, 2] : List ℚ).getLastD 0)
        count := min ((RepeatMemory.init 2 5).count + 1)
          (RepeatMemory.init 2 5).maxlen
        write_position := ((RepeatMemory.init 2 5).write_position + 1) %
          (RepeatMemory.init 2 5).maxlen } :=
  C4_append_effects (RepeatMemory.init 2 5) ⟨[0, 1], 0, 0, [1, 2], false⟩
    (by decide) (by decide) (by decide)

/-- C5: any record (with the configured frame count) whose `next_state`
frames `[0 .. k-2]` are not `allclose` to its `state` frames `[1 .. k-1]`
makes `append` fail with the ValidationError; the failing call returns
only the error, so the caller's buffer (`count`, `write_position`,
`observations`, `records`) is the unchanged original. -/
theorem C5_validation_error (s : RepeatMemory) (r : TransitionRecord)
    (_hs : r.state.length = s.frames_per_observation)
    (_hn : r.next_state.length = s.frames_per_observation)
    (hbad : allclose (r.state.drop 1) (r.next_state.dropLast) = false) :
    s.append r = .error .validation := by
  rw [List.drop_one] at hbad
  simp [RepeatMemory.append, RepeatMemory.check_record, hbad]

/-- C5 witness: a sliding-window violation at a concrete input. -/
theorem C5_witness :
    (RepeatMemory.init 2 5).append ⟨[1, 2], 0, 0, [9, 9], false⟩ =
      .error .validation :=
  C5_validation_error (RepeatMemory.init 2 5) ⟨[1, 2], 0, 0, [9, 9], false⟩
    (by decide) (by decide) (by decide)

/-- C6: `RepeatMemory.sample` fails with the InsufficientHistoryError
exactly when `count < frames_per_observation`; with
`count ≥ frames_per_observation` it does not raise and proceeds to draw
`batch_size` windows. -/
theorem C6_insufficient_history (s : RepeatMemory) (batch_size fuel : ℕ)
    (draws : ℕ → ℕ → ℕ) :
    (s.sample batch_size draws fuel = .error .insufficientHistory ↔
      s.count < s.frames_per_observation) ∧
    (s.frames_per_observation ≤ s.count →
      s.sample batch_size draws fuel =
        .ok ((List.range batch_size).map fun j =>
          s.sample_single (draws j) 0 fuel)) := by
  constructor
  · constructor
    · intro h
      by_contra hlt
      unfold RepeatMemory.sample at h
      rw [if_neg hlt] at h
      exact absurd h (by simp)
    · intro h
      unfold RepeatMemory.sample
      rw [if_pos h]
  · intro h
    unfold RepeatMemory.sample
    rw [if_neg (by omega)]

/-- C6 witness: with two records stored and one frame per observation, the
precondition passes and sampling proceeds. -/
theorem C6_witness :
    sC.sample 1 (fun _ _ => 0) 2 =
      .ok ((List.range 1).map fun j => sC.sample_single ((fun _ _ => 0) j) 0 2) :=
  (C6_insufficient_history sC 1 2 (fun _ _ => 0)).2 (by decide)

/-- C9 counterexample: a record with three frames instead of the
configured two whose overlap check also fails is rejected with the
ValidationError, not the ShapeError: `_check_record` runs the
sliding-window `allclose` comparison before the frame-count asserts. -/
theorem C9_counterexample :
    (RepeatMemory.init 2 5).append recShape = .error .validation ∧
    recShape.state.length ≠ (RepeatMemory.init 2 5).frames_per_observation ∧
    MemErr.validation ≠ MemErr.shape := by decide

/-- C9 amended: `append` checks the sliding-window overlap first and the
frame counts second; a record whose overlap passes but whose `state` or
`next_state` does not hold exactly `frames_per_observation` frames fails
with the ShapeError. -/
theorem C9_amended_shape_second (s : RepeatMemory) (r : TransitionRecord)
    (hclose : allclose (r.state.drop 1) (r.next_state.dropLast) = true)
    (hlen : r.state.length ≠ s.frames_per_observation ∨
      r.next_state.length ≠ s.frames_per_observation) :
    s.append r = .error .shape := by
  rw [List.drop_one] at hclose
  rcases hlen with h | h
  · simp [RepeatMemory.append, RepeatMemory.check_record, hclose, h]
  · by_cases h1 : r.state.length = s.frames_per_observation
    · simp [RepeatMemory.append, RepeatMemory.check_record, hclose, h1, h]
    · simp [RepeatMemory.append, RepeatMemory.check_record, hclose, h1]

/-- C9 witness: a three-frame record with a valid overlap is rejected with
the ShapeError. -/
theorem C9_witness :
    (RepeatMemory.init 2 5).append ⟨[1, 2, 3], 0, 0, [2, 3, 4], false⟩ =
      .error .shape :=
  C9_amended_shape_second (RepeatMemory.init 2 5)
    ⟨[1, 2, 3], 0, 0, [2, 3, 4], false⟩ (by decide) (Or.inl (by decide))

/-- C10: `Memory.sample` with `batch_size ≤ len` returns the records at
the `batch_size` pairwise-distinct positions chosen by the random source
(any duplicate-free in-range choice of positions is a possible outcome,
matching uniform sampling without replacement), each drawn from the
currently stored records, and the stored list itself is not modified (the
embedding returns the batch without a successor state); with
`batch_size > len` it fails with the SampleSizeError. -/
theorem C10_uniform_sample (m : Memory) (batch_size : ℕ) (idxs : List ℕ) :
    (batch_size ≤ m.items.length → idxs.length = batch_size → idxs.Nodup →
      (∀ i ∈ idxs, i < m.items.length) →
      m.sample batch_size idxs =
        .ok (idxs.map fun i => m.items.getD i defaultRecord) ∧
      (idxs.map fun i => m.items.getD i defaultRecord).length = batch_size ∧
      ((idxs.map fun i => m.items.getD i defaultRecord).all fun r =>
        decide (r ∈ m.items)) = true) ∧
    (m.items.length < batch_size →
      m.sample batch_size idxs = .error .sampleSize) := by
  constructor
  · intro h1 h2 h3 h4
    refine ⟨?_, by simp [h2], ?_⟩
    · unfold Memory.sample
      rw [if_neg (by omega)]
    · rw [List.all_eq_true]
      intro r hr
      rw [List.mem_map] at hr
      obtain ⟨i, hi, rfl⟩ := hr
      have hlt := h4 i hi
      rw [List.getD_eq_getElem?_getD, List.getElem?_eq_getElem hlt,
        Option.getD_some, decide_eq_true_eq]
      exact List.getElem_mem hlt
  · intro h
    unfold Memory.sample
    rw [if_pos h]

/-- C10 witness: sampling two distinct positions from a three-element
memory. -/
theorem C10_witness :
    mU.sample 2 [0, 2] =
      .ok (([0, 2] : List ℕ).map fun i => mU.items.getD i defaultRecord) ∧
    (([0, 2] : List ℕ).map fun i => mU.items.getD i defaultRecord).length = 2 ∧
    ((([0, 2] : List ℕ).map fun i => mU.items.getD i defaultRecord).all fun r =>
      decide (r ∈ mU.items)) = true :=
  (C10_uniform_sample mU 2 [0, 2]).1 (by decide) (by decide) (by decide)
    (by decide)

/-- C1 counterexample: in the full buffer `sA` (reachable by the five
appends `recsA`, `write_position` wrapped to 0) the draw `i = 0` is in
range (`count - k - 1 = 2`), is accepted and is returned by
`_sample_single`, yet its slot range `[0, 2]` contains the slot
`write_position = 0` that the next append will overwrite: the claim's
"window does not include `write_position`" fails; only strict
straddling (`i < write_position < i + k + 1`) is rejected. -/
theorem C1_counterexample :
    appendAll (RepeatMemory.init 2 5) recsA = .ok sA ∧
    sA.sample_single (fun _ => 0) 0 1 = some ⟨[2, 3], 2, 0, [3, 4], false⟩ ∧
    sA.accepted 0 = true ∧
    sA.write_position ∈ sA.codeWindowSlots 0 := by decide

/-- C1 amended: every accepted candidate start `i` has no `done` flag in
the non-final positions `[i, i + k - 1]` of its window, and the window
does not strictly straddle the write position (write_position is not in
the interior range `(i, i + k]`; it may coincide with the window's first
slot `i`). -/
theorem C1_amended_accept_conditions (s : RepeatMemory) (i : ℕ)
    (h : s.accepted i = true) :
    ((List.range s.frames_per_observation).all fun m =>
      !doneOpt (s.records.getD (i + m) none)) = true ∧
    ¬(i < s.write_position ∧
      s.write_position < i + s.frames_per_observation + 1) := by
  unfold RepeatMemory.accepted RepeatMemory.straddles
    RepeatMemory.doneInWindow at h
  rw [Bool.and_eq_true] at h
  obtain ⟨h1, h2⟩ := h
  constructor
  · rw [Bool.not_eq_true'] at h2
    rw [List.any_eq_false] at h2
    rw [List.all_eq_true]
    intro m hm
    rw [Bool.not_eq_true']
    exact Bool.of_not_eq_true (h2 m hm)
  · rw [Bool.not_eq_true'] at h1
    intro hc
    rcases Bool.and_eq_false_iff.mp h1 with h | h
    · exact absurd hc.1 (by simpa using h)
    · exact absurd hc.2 (by simpa using h)

/-- C1 witness: the amended acceptance conditions at the concrete state
`sA` and start index 0. -/
theorem C1_witness :
    ((List.range sA.frames_per_observation).all fun m =>
      !doneOpt (sA.records.getD (0 + m) none)) = true ∧
    ¬(0 < sA.write_position ∧
      sA.write_position < 0 + sA.frames_per_observation + 1) :=
  C1_amended_accept_conditions sA 0 (by decide)

/-- C3 counterexample: in the state `sA`, the sample accepted at `i = 0`
returns `action = 2`, the action of `records[i + k] = records[2]`, while
`records[i + k - 1] = records[1]` holds `action = 1`; the returned
record is therefore not a copy of `records[i + k - 1]` as claimed, but of
`records[i + k]` (the local list `records[i : i + k + 1]` ends at
`records[i + k]`, and `records[-1]` is that last element). -/
theorem C3_counterexample :
    sA.sample_single (fun _ => 0) 0 1 = some ⟨[2, 3], 2, 0, [3, 4], false⟩ ∧
    (sA.records.getD (0 + sA.frames_per_observation - 1) none).map
      StoredRecord.action = some 1 ∧
    (sA.records.getD (0 + sA.frames_per_observation) none).map
      StoredRecord.action = some 2 ∧
    (1 : ℤ) ≠ 2 := by decide

/-- C3 amended: on acceptance of the window starting at slot `i`,
`_sample_single` returns `state = observations[i .. i+k-1]` and
`next_state = observations[i+1 .. i+k]` attached to a copy of
`records[i + k]` (the metadata of the transition ending at the window's
last frame); the stored record itself is returned as a copy (the
embedding leaves the buffer unmodified and builds a fresh record). -/
theorem C3_amended_attach_last (s : RepeatMemory) (draws : ℕ → ℕ)
    (t fuel i : ℕ) (rec : StoredRecord) (hd : draws t = i)
    (hacc : s.accepted i = true)
    (hrec : s.records.getD (i + s.frames_per_observation) none = some rec) :
    s.sample_single draws t (fuel + 1) =
      some { state := (List.range s.frames_per_observation).map fun m =>
               s.observations.getD (i + m) 0
             action := rec.action
             reward := rec.reward
             next_state := (List.range s.frames_per_observation).map fun m =>
               s.observations.getD (i + 1 + m) 0
             done := rec.done } := by
  rw [sample_single_accepts s draws t fuel (by rw [hd]; exact hacc), hd]
  unfold RepeatMemory.reconstruct
  rw [hrec]

/-- C3 witness: the amended reconstruction at the concrete state `sA`,
start index 0. -/
theorem C3_witness :
    sA.sample_single (fun _ => 0) 0 3 =
      some { state := (List.range sA.frames_per_observation).map fun m =>
               sA.observations.getD (0 + m) 0
             action := 2
             reward := 0
             next_state := (List.range sA.frames_per_observation).map fun m =>
               sA.observations.getD (0 + 1 + m) 0
             done := false } :=
  C3_amended_attach_last sA (fun _ => 0) 0 2 0 ⟨2, 0, false⟩ rfl (by decide)
    (by decide)

/-- C7 counterexample: in the wrapped full buffer `sB` (reachable by the
seven appends `recsB`, `write_position = 2`), the logically linearized
window at logical start 2 is valid per the design document's definition
and occupies the wrapping slot run `[4, 0, 1]`, but no draw in the code's
range `[0, count - k - 1] = [0, 2]` produces that run: the code draws raw
start indices and takes raw contiguous runs, so wrapping runs are never
selectable. -/
theorem C7_counterexample :
    appendAll (RepeatMemory.init 2 5) recsB = .ok sB ∧
    sB.specValidWindow 2 = true ∧
    sB.specWindowSlots 2 = [4, 0, 1] ∧
    sB.count - sB.frames_per_observation - 1 = 2 ∧
    ((List.range 3).all fun i =>
      !(decide (sB.codeWindowSlots i = [4, 0, 1]))) = true := by decide

/-- C7 amended: each draw picks the candidate start `i` as a raw array
index in `[0, count - k - 1]`, and the examined window is the raw
contiguous slot run `[i, i + k]`; every slot of such a window lies below
`count` (and hence below `maxlen`), so candidate windows never wrap past
the end of the underlying array and wrapping runs are never selected. -/
theorem C7_amended_raw_windows (s : RepeatMemory) (i : ℕ)
    (hrange : i + s.frames_per_observation + 1 ≤ s.count)
    (hcm : s.count ≤ s.maxlen) :
    ((s.codeWindowSlots i).all fun j =>
      decide (j < s.count) && decide (j < s.maxlen)) = true := by
  rw [List.all_eq_true]
  intro j hj
  rw [RepeatMemory.codeWindowSlots, List.mem_map] at hj
  obtain ⟨m, hm, rfl⟩ := hj
  rw [List.mem_range] at hm
  simp only [Bool.and_eq_true, decide_eq_true_eq]
  omega

/-- C7 witness: the amended window bounds at the concrete state `sB`,
start index 0. -/
theorem C7_witness :
    ((sB.codeWindowSlots 0).all fun j =>
      decide (j < sB.count) && decide (j < sB.maxlen)) = true :=
  C7_amended_raw_windows sB 0 (by decide) (by decide)

/-- C8: the rejection loop has no iteration cap, and a reachable state
with no valid window exists: after the two terminal appends `recsC`
(`frames_per_observation = 1`, `maxlen = 2`), `sample`'s precondition
passes (`count = 2 ≥ 1`), the only in-range draw is 0, and that window is
always rejected because `records[0].done` is true — so for every stream
of in-range draws and every amount of fuel the loop is still running
(`none`), never returning and never raising. -/
theorem C8_nontermination :
    appendAll (RepeatMemory.init 1 2) recsC = .ok sC ∧
    sC.frames_per_observation ≤ sC.count ∧
    ∀ (draws : ℕ → ℕ) (t fuel : ℕ),
      (∀ u, draws u + sC.frames_per_observation + 1 ≤ sC.count) →
      sC.sample_single draws t fuel = none := by
  refine ⟨by decide, by decide, ?_⟩
  intro draws t fuel h
  induction fuel generalizing t with
  | zero => rfl
  | succ n ih =>
    have hd : draws t = 0 := by
      have h2 : draws t + sC.frames_per_observation + 1 ≤ sC.count := h t
      simp only [sC] at h2
      omega
    have hrej : sC.accepted (draws t) = false := by rw [hd]; decide
    simp only [RepeatMemory.sample_single, hrej, Bool.false_eq_true,
      if_false]
    exact ih (t + 1)

/-- C8 witness: the loop makes no progress at the concrete state with a
concrete in-range draw stream and fuel. -/
theorem C8_witness : sC.sample_single (fun _ => 0) 0 5 = none :=
  C8_nontermination.2.2 (fun _ => 0) 0 5
    (by intro u; show 0 + sC.frames_per_observation + 1 ≤ sC.count; decide)

/-- C2: round-trip.  If the buffer already holds the frames
`f 0 .. f (k-1)` in the `k` slots right below `write_position` (the
situation produced by preceding sliding-window appends), then appending
the record with `state = [f 0 .. f (k-1)]`, `next_state = [f 1 .. f k]`
passes `_check_record`, and a later sample whose accepted window is that
window (`draws t = i`) reconstructs `state` and `next_state` exactly
equal to the originally appended arrays, together with the appended
`action`, `reward` and `done`. -/
theorem C2_roundtrip (s s₁ : RepeatMemory) (f : ℕ → ℚ) (i : ℕ) (a : ℤ)
    (w : ℚ) (d : Bool) (draws : ℕ → ℕ) (t fuel : ℕ)
    (hk : 1 ≤ s.frames_per_observation)
    (hwp : s.write_position = i + s.frames_per_observation)
    (hlt : i + s.frames_per_observation < s.maxlen)
    (hobs : s.observations.length = s.maxlen)
    (hrecl : s.records.length = s.maxlen)
    (hbuf : ∀ m, m < s.frames_per_observation →
      s.observations.getD (i + m) 0 = f m)
    (happ : s.append
      { state := (List.range s.frames_per_observation).map f
        action := a
        reward := w
        next_state :=
          (List.range s.frames_per_observation).map fun m => f (m + 1)
        done := d } = .ok s₁)
    (hacc : s₁.accepted i = true) (hdr : draws t = i) :
    s.check_record
      { state := (List.range s.frames_per_observation).map f
        action := a
        reward := w
        next_state :=
          (List.range s.frames_per_observation).map fun m => f (m + 1)
        done := d } = .ok () ∧
    s₁.sample_single draws t (fuel + 1) =
      some { state := (List.range s.frames_per_observation).map f
             action := a
             reward := w
             next_state :=
               (List.range s.frames_per_observation).map fun m => f (m + 1)
             done := d } := by
  obtain ⟨k, hkk⟩ : ∃ k, s.frames_per_observation = k + 1 :=
    ⟨s.frames_per_observation - 1, by omega⟩
  have hdrop : ((List.range s.frames_per_observation).map f).drop 1 =
      (List.range k).map fun m => f (m + 1) := by
    rw [hkk, range_map_drop_one]
  have hdl : ((List.range s.frames_per_observation).map
      fun m => f (m + 1)).dropLast = (List.range k).map fun m => f (m + 1) := by
    rw [hkk, range_map_dropLast]
  have hchk : s.check_record
      { state := (List.range s.frames_per_observation).map f
        action := a
        reward := w
        next_state :=
          (List.range s.frames_per_observation).map fun m => f (m + 1)
        done := d } = .ok () := by
    unfold RepeatMemory.check_record
    rw [hdrop, hdl, allclose_self]
    simp
  refine ⟨hchk, ?_⟩
  have happ3 : s.append
      { state := (List.range s.frames_per_observation).map f
        action := a
        reward := w
        next_state :=
          (List.range s.frames_per_observation).map fun m => f (m + 1)
        done := d } = .ok
      { s with
        records := s.records.set s.write_position (some ⟨a, w, d⟩)
        observations := s.observations.set s.write_position
          (((List.range s.frames_per_observation).map
            fun m => f (m + 1)).getLastD 0)
        count := if s.count < s.maxlen then s.count + 1 else s.count
        write_position := if s.write_position + 1 = s.maxlen then 0
          else s.write_position + 1 } := by
    unfold RepeatMemory.append
    rw [hchk]
  rw [happ3] at happ
  injection happ with hs₁
  subst hs₁
  rw [sample_single_accepts _ draws t fuel (by rw [hdr]; exact hacc), hdr]
  unfold RepeatMemory.reconstruct
  have hrg : (s.records.set s.write_position
      (some ⟨a, w, d⟩)).getD (i + s.frames_per_observation) none =
      some ⟨a, w, d⟩ := by
    rw [hwp]
    exact getD_set_self _ _ _ _ (by rw [hrecl]; omega)
  rw [hrg]
  simp only [Option.some.injEq, TransitionRecord.mk.injEq]
  refine ⟨?_, trivial, trivial, ?_, trivial⟩
  · apply List.map_congr_left
    intro m hm
    rw [List.mem_range] at hm
    have hne : s.write_position ≠ i + m := by omega
    rw [getD_set_ne _ _ _ _ _ hne]
    exact hbuf m hm
  · apply List.map_congr_left
    intro m hm
    rw [List.mem_range] at hm
    by_cases hmk : m + 1 = s.frames_per_observation
    · rw [show i + 1 + m = s.write_position from by omega]
      rw [getD_set_self _ _ _ _ (by rw [hobs]; omega)]
      rw [hkk, range_map_getLastD]
      exact congrArg f (by omega)
    · have hne : s.write_position ≠ i + 1 + m := by omega
      rw [getD_set_ne _ _ _ _ _ hne]
      rw [show i + 1 + m = i + (m + 1) from by omega]
      exact hbuf (m + 1) (by omega)

/-- C2 witness: the round-trip at the concrete buffer `sD` (frames 2 and 3
in slots 0 and 1, write position 2), appending frames `[2,3]` / `[3,4]`
and sampling back the window starting at slot 0 of the resulting buffer
`sD₁`. -/
theorem C2_witness :
    sD.check_record
      { state := (List.range sD.frames_per_observation).map
          fun m => ((m : ℚ) + 2)
        action := 7
        reward := 1
        next_state := (List.range sD.frames_per_observation).map
          fun m => (((m + 1 : ℕ) : ℚ) + 2)
        done := true } = .ok () ∧
    sD₁.sample_single (fun _ => 0) 0 (0 + 1) =
      some { state := (List.range sD.frames_per_observation).map
               fun m => ((m : ℚ) + 2)
             action := 7
             reward := 1
             next_state := (List.range sD.frames_per_observation).map
               fun m => (((m + 1 : ℕ) : ℚ) + 2)
             done := true } :=
  C2_roundtrip sD sD₁ (fun m => ((m : ℚ) + 2)) 0 7 1 true (fun _ => 0) 0 0
    (by decide) (by decide) (by decide) (by decide) (by decide)
    (by
      intro m hm
      have hm2 : m < 2 := hm
      interval_cases m <;> decide)
    (by decide) (by decide) rfl
